import Mathlib

/-!
Shallow embedding of the ContractorOS backend core (`src/app.py`).

Conventions of the embedding:
* Python `float` values (quantities, prices, fuzzy scores) are modelled as `ℚ`
  (exact arithmetic; the concrete decimal literals of the program are exact).
* The rapidfuzz `fuzz.WRatio` scorer is third-party code; it is modelled as an
  abstract parameter `Scorer : String → String → ℚ` threaded through every
  definition that calls it.  `process.extractOne` itself (pick the candidate
  with the highest score, first one wins ties) is modelled concretely.
* Python exceptions are modelled with `Except Exc`: code that may raise runs in
  the `Except` monad, `try/except` blocks are explicit `match`es on the result.
* The network (`httpx` session), the HTML parser (`BeautifulSoup` applied to a
  response body) and the local CSV file system are modelled by an environment
  record `Env`: a fetched, parsed page is an abstract `Page` (selector → text
  mapping plus full page text), and both effects may fail.
* `materials.yaml` / `providers.yaml` are absent from the repository snapshot,
  so `MATS = {}` (the synonym map is exactly the literal `CANON_MAP`) and the
  provider list `PROVIDERS` is kept as an explicit argument of `pricesLiveE`.
-/

namespace ContractorOS

/-! ## Python string primitives (on `List Char`, wrapped to `String`) -/

/-- Whitespace as recognised by Python `str.strip()` / regex `\s`
(ASCII fragment; the program only ever meets ASCII whitespace). -/
def isPySpace (c : Char) : Bool :=
  c = ' ' || c = '\t' || c = '\n' || c = '\r' || c = Char.ofNat 11 || c = Char.ofNat 12

/-- Python `str.lower()` (ASCII fragment). -/
def pyLower (s : String) : String := String.mk (s.data.map Char.toLower)

/-- Python `str.strip()`: drop leading and trailing whitespace. -/
def pyTrim (s : String) : String :=
  String.mk (((s.data.dropWhile isPySpace).reverse.dropWhile isPySpace).reverse)

/-- Python `str.strip(chars)`: drop leading and trailing characters drawn
from the set `cs`. -/
def pyStripSet (s : String) (cs : List Char) : String :=
  String.mk (((s.data.dropWhile (cs.contains ·)).reverse.dropWhile (cs.contains ·)).reverse)

/-- One step of Python `str.replace(pat, rep)`: leftmost, non-overlapping,
continuing after the replaced occurrence.  Fuel-indexed (fuel = input length
suffices because `pat` is nonempty at every use site). -/
def replSubAux (pat rep : List Char) : Nat → List Char → List Char
  | 0, s => s
  | _ + 1, [] => []
  | n + 1, c :: rest =>
    if pat.isPrefixOf (c :: rest) then rep ++ replSubAux pat rep n ((c :: rest).drop pat.length)
    else c :: replSubAux pat rep n rest

/-- Python `str.replace(pat, rep)` (for nonempty `pat`). -/
def pyReplace (s pat rep : String) : String :=
  String.mk (replSubAux pat.data rep.data s.data.length s.data)

/-- Python `pat in s` (substring containment). -/
def pyContains (s pat : String) : Bool :=
  (s.data.tails.any fun t => pat.data.isPrefixOf t)

/-- Python `s.startswith(pre)`. -/
def pyStarts (s pre : String) : Bool := pre.data.isPrefixOf s.data

/-- Python `s[:n]`. -/
def pyTake (n : Nat) (s : String) : String := String.mk (s.data.take n)

/-- Python `str.splitlines()`: each `\n`, `\r` or `\r\n` terminates a line;
a trailing segment is emitted only when nonempty. -/
def splitLinesAux : List Char → List Char → List (List Char)
  | cur, [] => if cur.isEmpty then [] else [cur.reverse]
  | cur, '\n' :: rest => cur.reverse :: splitLinesAux [] rest
  | cur, '\r' :: '\n' :: rest => cur.reverse :: splitLinesAux [] rest
  | cur, '\r' :: rest => cur.reverse :: splitLinesAux [] rest
  | cur, c :: rest => splitLinesAux (c :: cur) rest

/-- Python `str.splitlines()` on a `String`. -/
def pyLines (s : String) : List String := (splitLinesAux [] s.data).map String.mk

/-- Python `str.title()` (ASCII fragment): the first letter of every maximal
alphabetic run is uppercased, the rest lowercased. -/
def titleAux : Bool → List Char → List Char
  | _, [] => []
  | prevAlpha, c :: rest =>
    (if c.isAlpha then (if prevAlpha then c.toLower else c.toUpper) else c)
      :: titleAux c.isAlpha rest

/-- Python `str.title()` on a `String`. -/
def pyTitle (s : String) : String := String.mk (titleAux false s.data)

/-! ## Kernel-reducible rational arithmetic

The `Rat` operations of the standard library are `@[irreducible]`, which
blocks `decide`-style evaluation of the embedded program on concrete inputs.
The embedding therefore computes with the following `mkRat`-based versions,
each proved equal to the standard operation. -/

/-- Reducible rational addition. -/
def qadd (a b : ℚ) : ℚ := mkRat (a.num * b.den + b.num * a.den) (a.den * b.den)

/-- Reducible rational multiplication. -/
def qmul (a b : ℚ) : ℚ := mkRat (a.num * b.num) (a.den * b.den)

/-- Reducible rational division (`qdiv a 0 = 0`, matching `a / 0 = 0`;
the embedded code never divides by zero). -/
def qdiv (a b : ℚ) : ℚ := mkRat (a.num * b.den * b.num.sign) (a.den * b.num.natAbs)

/-- Reducible rational negation. -/
def qneg (a : ℚ) : ℚ := mkRat (-a.num) a.den

/-- Reducible embedding of a natural number. -/
def qofNat (n : Nat) : ℚ := mkRat n 1

/-! ## Decimal-number parsing (the regexes of `parse_line` / `usd` / `float`) -/

/-- Value of a digit string. -/
def digitsToNat (ds : List Char) : Nat := ds.foldl (fun n c => n * 10 + (c.toNat - 48)) 0

/-- Value matched by the regex fragment `\d+(?:\.\d+)?` at the head of `s`
(`s` is assumed to start with a digit; the fractional part is consumed only
when at least one digit follows the dot). -/
def numFrom (s : List Char) : ℚ :=
  let ds := s.takeWhile Char.isDigit
  let rest := s.dropWhile Char.isDigit
  let ip : ℚ := qofNat (digitsToNat ds)
  match rest with
  | '.' :: r2 =>
    let fs := r2.takeWhile Char.isDigit
    if fs.isEmpty then ip
    else qadd ip (qdiv (qofNat (digitsToNat fs)) (qofNat (10 ^ fs.length)))
  | _ => ip

/-- Leftmost match of `re.search(r"(^|\s)(\d+(?:\.\d+)?)", l)`: the first
digit run that sits at the start of the string or right after whitespace. -/
def findNumAux : Bool → List Char → Option ℚ
  | _, [] => none
  | atSep, c :: rest =>
    if atSep && c.isDigit then some (numFrom (c :: rest))
    else findNumAux (isPySpace c) rest

/-- First `(^|\s)`-anchored decimal token of a string, as used by `parse_line`. -/
def findNum (s : String) : Option ℚ := findNumAux true s.data

/-- The helper `usd(text)`: leftmost match of `\$\s*([0-9]+(?:\.[0-9]+)?)`,
or `None`. -/
def usdAux : List Char → Option ℚ
  | [] => none
  | '$' :: rest =>
    match rest.dropWhile isPySpace with
    | c :: cs => if c.isDigit then some (numFrom (c :: cs)) else usdAux rest
    | [] => none
  | _ :: rest => usdAux rest

/-- `usd : str → Optional[float]` of the source. -/
def usd (s : String) : Option ℚ := usdAux s.data

/-- Python `float(str)` on plain decimal literals (optional sign, digits with
an optional fractional part, surrounding whitespace); `none` models the
`ValueError` raised on anything else.  Exponent forms never occur in the
CSV price column this is applied to. -/
def parseUnsigned (s : List Char) : Option ℚ :=
  let ds := s.takeWhile Char.isDigit
  let rest := s.dropWhile Char.isDigit
  match rest with
  | [] => if ds.isEmpty then none else some (qofNat (digitsToNat ds))
  | '.' :: r2 =>
    let fs := r2.takeWhile Char.isDigit
    if (r2.dropWhile Char.isDigit).isEmpty then
      if ds.isEmpty && fs.isEmpty then none
      else some (qadd (qofNat (digitsToNat ds))
        (qdiv (qofNat (digitsToNat fs)) (qofNat (10 ^ fs.length))))
    else none
  | _ => none

/-- Python `float` parsing on a `String`. -/
def pyFloat (s : String) : Option ℚ :=
  match (pyTrim s).data with
  | '-' :: r => (parseUnsigned r).map qneg
  | '+' :: r => parseUnsigned r
  | r => parseUnsigned r

/-! ## Data model -/

/-- One row of a catalog entry's `vendors` list:
`{"store": ..., "zipPrefix": ..., "price": ...}`. -/
structure VendorRow where
  store : String
  zipPre : String
  price : ℚ
deriving DecidableEq

/-- One `VENDOR_CATALOG` entry: `{"name": ..., "unit": ..., "vendors": [...]}`. -/
structure CatEntry where
  name : String
  unit : String
  vendors : List VendorRow
deriving DecidableEq

/-- The literal `VENDOR_CATALOG` dict, in insertion order. -/
def VENDOR_CATALOG : List (String × CatEntry) :=
  [ ("2x4_stud_92", ⟨"2x4 Stud 92-5/8\"", "each",
      [⟨"McCoy's", "784", mkRat 369 100⟩, ⟨"Home Depot", "784", mkRat 379 100⟩,
       ⟨"Lowe's", "784", mkRat 375 100⟩, ⟨"Generic", "*", mkRat 410 100⟩]⟩),
    ("2x4_plate_lf", ⟨"2x4 Plate (linear ft)", "lf",
      [⟨"McCoy's", "784", mkRat 85 100⟩, ⟨"Home Depot", "784", mkRat 92 100⟩,
       ⟨"Lowe's", "784", mkRat 90 100⟩, ⟨"Generic", "*", mkRat 105 100⟩]⟩),
    ("2x1012_joist", ⟨"2x10x12 Joist", "each",
      [⟨"McCoy's", "784", mkRat 1980 100⟩, ⟨"Home Depot", "784", mkRat 2050 100⟩,
       ⟨"Lowe's", "784", mkRat 2010 100⟩, ⟨"Generic", "*", mkRat 2200 100⟩]⟩),
    ("osb_716_4x8", ⟨"OSB Sheathing 7/16\" 4x8", "sheet",
      [⟨"McCoy's", "784", mkRat 1295 100⟩, ⟨"Home Depot", "784", mkRat 1320 100⟩,
       ⟨"Lowe's", "784", mkRat 1310 100⟩, ⟨"Generic", "*", mkRat 1400 100⟩]⟩),
    ("hurricane_tie", ⟨"Hurricane Tie", "each",
      [⟨"McCoy's", "784", mkRat 89 100⟩, ⟨"Home Depot", "784", mkRat 98 100⟩,
       ⟨"Lowe's", "784", mkRat 95 100⟩, ⟨"Generic", "*", mkRat 110 100⟩]⟩),
    ("nails_lb", ⟨"Nails (per lb)", "lb",
      [⟨"McCoy's", "784", mkRat 210 100⟩, ⟨"Home Depot", "784", mkRat 230 100⟩,
       ⟨"Lowe's", "784", mkRat 225 100⟩, ⟨"Generic", "*", mkRat 260 100⟩]⟩),
    ("screws_lb", ⟨"Exterior Screws (per lb)", "lb",
      [⟨"McCoy's", "784", mkRat 490 100⟩, ⟨"Home Depot", "784", mkRat 530 100⟩,
       ⟨"Lowe's", "784", mkRat 510 100⟩, ⟨"Generic", "*", mkRat 570 100⟩]⟩),
    ("4x4_post_8", ⟨"4x4x8 Treated Post", "each",
      [⟨"McCoy's", "784", mkRat 1298 100⟩, ⟨"Home Depot", "784", mkRat 1377 100⟩,
       ⟨"Lowe's", "784", mkRat 1342 100⟩, ⟨"Generic", "*", mkRat 1499 100⟩]⟩),
    ("4x4_post_10", ⟨"4x4x10 Treated Post", "each",
      [⟨"McCoy's", "784", mkRat 1890 100⟩, ⟨"Home Depot", "784", mkRat 1945 100⟩,
       ⟨"Lowe's", "784", mkRat 1920 100⟩, ⟨"Generic", "*", mkRat 2090 100⟩]⟩),
    ("2x4x16", ⟨"2x4x16 Treated", "each",
      [⟨"McCoy's", "784", mkRat 1020 100⟩, ⟨"Home Depot", "784", mkRat 1068 100⟩,
       ⟨"Lowe's", "784", mkRat 1049 100⟩, ⟨"Generic", "*", mkRat 1130 100⟩]⟩),
    ("picket_treated", ⟨"Fence picket (treated)", "each",
      [⟨"McCoy's", "784", mkRat 235 100⟩, ⟨"Home Depot", "784", mkRat 248 100⟩,
       ⟨"Lowe's", "784", mkRat 244 100⟩, ⟨"Generic", "*", mkRat 269 100⟩]⟩),
    ("quikrete_50lb", ⟨"Quikrete 50 lb", "bag",
      [⟨"McCoy's", "784", mkRat 495 100⟩, ⟨"Home Depot", "784", mkRat 525 100⟩,
       ⟨"Lowe's", "784", mkRat 510 100⟩, ⟨"Generic", "*", mkRat 560 100⟩]⟩) ]

/-- First-match association-list lookup (Python dict access on unique keys). -/
def alget {α : Type} : List (String × α) → String → Option α
  | [], _ => none
  | (k, v) :: rest, key => if k = key then some v else alget rest key

/-- `VENDOR_CATALOG.get(sku)`. -/
def catalogGet (sku : String) : Option CatEntry := alget VENDOR_CATALOG sku

/-- The literal `CANON_MAP` dict (phrase → canonical key), in insertion order.
`materials.yaml` is absent from the snapshot, so no synonym entries are
injected beyond the literals. -/
def CANON_MAP : List (String × String) :=
  [ ("4x4 post 8", "4x4_post_8"),
    ("4x4x8", "4x4_post_8"),
    ("4x4 post 10", "4x4_post_10"),
    ("4x4x10", "4x4_post_10"),
    ("2x4x16", "2x4x16"),
    ("2x4 16", "2x4x16"),
    ("2x4 plate", "2x4_plate_lf"),
    ("stud 92", "2x4_stud_92"),
    ("osb 7/16", "osb_716_4x8"),
    ("hurricane tie", "hurricane_tie"),
    ("nails", "nails_lb"),
    ("screws", "screws_lb"),
    ("pickets", "picket_treated"),
    ("quikrete 50 lb", "quikrete_50lb"),
    ("quikrete 50lb", "quikrete_50lb") ]

/-- `CANON_MAP` membership/lookup. -/
def canonLookup (t : String) : Option String := alget CANON_MAP t

/-! ## Fuzzy resolution (`fuzzy_to_sku`) -/

/-- Abstract model of the third-party `fuzz.WRatio` string-similarity scorer:
`score query candidate` is the (float) similarity on the 0–100 scale. -/
def Scorer : Type := String → String → ℚ

/-- Model of `rapidfuzz.process.extractOne(query, choices, scorer)`: the
`(choice, score, index)` triple with the highest score, the earliest choice
winning ties; `none` exactly when `choices` is empty. -/
def extractOneGo (score : Scorer) (q : String) :
    Option (String × ℚ × Nat) → Nat → List String → Option (String × ℚ × Nat)
  | best, _, [] => best
  | none, i, c :: rest => extractOneGo score q (some (c, score q c, i)) (i + 1) rest
  | some (bc, bs, bi), i, c :: rest =>
    if score q c > bs then extractOneGo score q (some (c, score q c, i)) (i + 1) rest
    else extractOneGo score q (some (bc, bs, bi)) (i + 1) rest

/-- `process.extractOne` over a choice list. -/
def extractOne (score : Scorer) (q : String) (choices : List String) :
    Option (String × ℚ × Nat) :=
  extractOneGo score q none 0 choices

/-- The loop `for sku, data in VENDOR_CATALOG.items(): if
data["name"].lower().startswith(key) or sku == key: return sku`. -/
def skuForKey (key : String) : Option String :=
  (VENDOR_CATALOG.find? fun p => pyStarts (pyLower p.2.name) key || p.1 = key).map (·.1)

/-- The loop `for sku, data in VENDOR_CATALOG.items(): if
data["name"].lower() == match: return sku`. -/
def skuForName (m : String) : Option String :=
  (VENDOR_CATALOG.find? fun p => pyLower p.2.name = m).map (·.1)

/-- Resolution of an `extractOne` winner in the `>= 80` branch of
`fuzzy_to_sku`: a `CANON_MAP` phrase goes through its canonical key, any
other candidate is an exact lowered catalog name. -/
def resolveMatch (m : String) : Option String :=
  match canonLookup m with
  | some target => skuForKey target
  | none => skuForName m

/-- The candidate list `list(CANON_MAP.keys()) +
[VENDOR_CATALOG[k]["name"].lower() for k in VENDOR_CATALOG]`. -/
def candidates : List String :=
  CANON_MAP.map (·.1) ++ VENDOR_CATALOG.map (fun p => pyLower p.2.name)

/-- The phrase normalisation at the top of `fuzzy_to_sku` before `.strip()`:
`text.lower().replace('"','').replace("in","")`. -/
def preNorm (text : String) : String :=
  pyReplace (pyReplace (pyLower text) "\"" "") "in" ""

/-- The full phrase normalisation of `fuzzy_to_sku` (with the `.strip()`). -/
def normPhrase (text : String) : String := pyTrim (preNorm text)

/-- The body of `fuzzy_to_sku` after normalisation, on the normalised text
`t`: exact `CANON_MAP` hit first (with its two resolution attempts), then
`extractOne` with the single `>= 80` cutoff. -/
def fuzzyResolve (score : Scorer) (t : String) : Option String :=
  let exact : Option String :=
    match canonLookup t with
    | some key =>
      match skuForKey key with
      | some sku => some sku
      | none => if (catalogGet t).isSome then some t else none
    | none => none
  match exact with
  | some s => some s
  | none =>
    match extractOne score t candidates with
    | some (m, sc, _) => if 80 ≤ sc then resolveMatch m else none
    | none => none

/-- `fuzzy_to_sku(text)` of the source, with the scorer abstract. -/
def fuzzy_to_sku (score : Scorer) (text : String) : Option String :=
  fuzzyResolve score (normPhrase text)

/-! ## Rule-based line parsing (`parse_line`) -/

/-- `parse_line(line)` of the source: the compound keyword rules, in their
source order, paired with the first anchored decimal token (default `1.0`);
`none` models the final `return (None, None)`. -/
def parse_line (line : String) : Option (String × ℚ) :=
  let l := pyLower line
  let qty := (findNum l).getD 1
  if pyContains l "2x4" && (pyContains l "stud" || pyContains l "92") then
    some ("2x4_stud_92", qty)
  else if pyContains l "2x4" && (pyContains l "plate" || pyContains l "lf" || pyContains l "linear") then
    some ("2x4_plate_lf", qty)
  else if pyContains l "2x10" && (pyContains l "12" || pyContains l "joist") then
    some ("2x1012_joist", qty)
  else if (pyContains l "osb" || pyContains l "sheath") && (pyContains l "7/16" || pyContains l "716") then
    some ("osb_716_4x8", qty)
  else if pyContains l "hurricane" then some ("hurricane_tie", qty)
  else if pyContains l "nail" then some ("nails_lb", qty)
  else if pyContains l "screw" then some ("screws_lb", qty)
  else if pyContains l "4x4" && pyContains l "8" then some ("4x4_post_8", qty)
  else if pyContains l "4x4" && pyContains l "10" then some ("4x4_post_10", qty)
  else none

/-! ## Request models and Python exceptions -/

/-- The pydantic `Item` model (also serving as `Intent`, whose fields are
identical): `{name, qty, unit, canonical_hint}`. -/
structure Item where
  name : String
  qty : ℚ
  unit : String
  canonical_hint : String
deriving DecidableEq

/-- The `Intent` model of the source is field-for-field the same as `Item`. -/
abbrev Intent := Item

/-- Python exceptions that the modelled fragment can raise. -/
inductive Exc where
  /-- `TypeError` (`float(None)`). -/
  | typeError
  /-- a network error or timeout raised by `httpx` (`session.get`). -/
  | netFail
  /-- an OS / CSV-reading error raised inside the `csv` branch. -/
  | ioFail
deriving DecidableEq

/-! ## `/normalize` (`normalize`) and `simple_intents_from_text` -/

/-- Ordered-dict accumulation `items[sku] = items.get(sku, 0) + v`:
update in place when the key exists, append otherwise. -/
def bump : List (String × ℚ) → String → ℚ → List (String × ℚ)
  | [], k, v => [(k, v)]
  | (k', v') :: rest, k, v =>
    if k' = k then (k', qadd v' v) :: rest else (k', v') :: bump rest k v

/-- The per-line preprocessing `raw.strip("-• ").strip()`. -/
def cleanLine (raw : String) : String := pyTrim (pyStripSet raw ['-', '•', ' '])

/-- Materialisation of the accumulated `{sku: qty}` dict into `Item`s,
shared verbatim by `normalize` and `simple_intents_from_text`:
`cat = VENDOR_CATALOG.get(sku, {}); Item(name=cat.get("name", sku), ...,
unit=cat.get("unit", ""), canonical_hint=sku)`. -/
def itemsOf (acc : List (String × ℚ)) : List Item :=
  acc.map fun p =>
    match catalogGet p.1 with
    | some cat => ⟨cat.name, p.2, cat.unit, p.1⟩
    | none => ⟨p.1, p.2, "", p.1⟩

/-- The line loop of `normalize`.  When `parse_line` fails but `fuzzy_to_sku`
succeeds, the retained `qty` is Python `None` and `float(qty)` raises
`TypeError` — hence the `Except`. -/
def normLines (score : Scorer) : List String → List (String × ℚ) →
    Except Exc (List (String × ℚ))
  | [], acc => .ok acc
  | rawL :: rest, acc =>
    let raw := cleanLine rawL
    if raw = "" then normLines score rest acc
    else
      match parse_line raw with
      | some (sku, qty) => normLines score rest (bump acc sku qty)
      | none =>
        match fuzzy_to_sku score raw with
        | some _ => .error .typeError
        | none => normLines score rest acc

/-- The `/normalize` handler `normalize(req)` (its `zip` field is unused by
the handler body), returning the produced items or the raised exception. -/
def normalizeE (score : Scorer) (text : String) : Except Exc (List Item) :=
  (normLines score (pyLines text) []).map itemsOf

/-- Python `x or 1.0` on an optional float: `None` and `0.0` both give `1.0`. -/
def orOne : Option ℚ → ℚ
  | none => 1
  | some q => if q = 0 then 1 else q

/-- The line loop of `simple_intents_from_text`; its accumulation is
`intents[sku] = intents.get(sku, 0.0) + (qty or 1.0)`, so it never raises. -/
def simpleLines (score : Scorer) : List String → List (String × ℚ) → List (String × ℚ)
  | [], acc => acc
  | rawL :: rest, acc =>
    let raw := cleanLine rawL
    if raw = "" then simpleLines score rest acc
    else
      match parse_line raw with
      | some (sku, qty) => simpleLines score rest (bump acc sku (orOne (some qty)))
      | none =>
        match fuzzy_to_sku score raw with
        | some sku => simpleLines score rest (bump acc sku (orOne none))
        | none => simpleLines score rest acc

/-- `simple_intents_from_text(text)` of the source. -/
def simple_intents_from_text (score : Scorer) (text : String) : List Intent :=
  itemsOf (simpleLines score (pyLines text) [])

/-! ## Hint repair (`normalize_gpt` / `search_materials`) -/

/-- The repair of an externally proposed `canonical_hint` (lines 269–273 of
the source, identical at lines 378–382): a hint present in `VENDOR_CATALOG`
is kept; otherwise `sku_fuzzy or sku_guess or "2x4_stud_92"` — the fuzzy
result takes precedence over the `parse_line` guess, then the baseline. -/
def repairHint (score : Scorer) (hint name : String) : String :=
  if (catalogGet hint).isSome then hint
  else
    match fuzzy_to_sku score name with
    | some s => s
    | none =>
      match parse_line name with
      | some (g, _) => g
      | none => "2x4_stud_92"

/-- One structured draft item proposed by the external extractor
(`it.get("canonical_hint")`, `it.get("name")`, `it.get("qty", 1)`,
`it.get("unit", "")`). -/
structure Draft where
  name : Option String
  qty : ℚ
  unit : Option String
  hint : Option String
deriving DecidableEq

/-- The per-draft `Item` built inside the GPT branches of `normalize_gpt` and
`search_materials`: the hint is repaired against the draft's name. -/
def gptItem (score : Scorer) (d : Draft) : Item :=
  ⟨d.name.getD "item", d.qty, (d.unit.getD ""),
    repairHint score (d.hint.getD "") (d.name.getD "")⟩

/-! ## Providers, offers and `/prices_live` -/

/-- A provider descriptor from `providers.yaml`: the `type` discriminator
with the fields each branch of `fetch_price_by_provider` reads. -/
inductive Provider where
  /-- `type: html` with `name`, `search` (URL template) and `selectors`. -/
  | html (name search : String) (selectors : List (String × String))
  /-- `type: csv` with `path` and `zip_filter`. -/
  | csv (path zf : String)
  /-- any other `type` (falls through to `return None`). -/
  | other
deriving DecidableEq

/-- A fetched and parsed HTML page: `select_one` results per selector and the
whole-page text. -/
structure Page where
  sels : List (String × String)
  fullText : String

/-- One CSV row (`csv.DictReader` fields the code reads, absent → `""`). -/
structure CsvRow where
  title : String
  zipPre : String
  price : String
  sku : String
deriving DecidableEq

/-- The effectful outside world of `/prices_live`: the HTTP client composed
with BeautifulSoup (`get`), the CSV file system (`readCsv`) and URL quoting
(`httpx.utils.quote`); the first two may raise. -/
structure Env where
  get : String → Except Exc Page
  readCsv : String → Except Exc (List CsvRow)
  urlquote : String → String

/-- An offer dict as produced by the handlers.  The three producers build
different key sets, modelled by the optional fields: html offers carry
`url`/`title`, CSV offers carry `title`/`sku`, catalog-fallback rows carry
`zipPrefix`. -/
structure Offer where
  store : String
  price : ℚ
  url : Option String
  title : Option String
  sku : Option String
  zipPre : Option String
deriving DecidableEq

/-- A catalog vendor row used directly as a fallback offer dict. -/
def vendorToOffer (v : VendorRow) : Offer :=
  ⟨v.store, v.price, none, none, none, some v.zipPre⟩

/-- Stable ascending sort by a rational key — the model of Python's stable
`sorted(..., key=...)`. -/
def sortByKey {α : Type} (key : α → ℚ) (l : List α) : List α :=
  l.insertionSort fun a b => key a ≤ key b

/-- `fetch_price_by_provider(session, provider, query)`.  The `html` branch
runs unguarded (network failures propagate as exceptions); the `csv` branch
is wrapped in `try/except` and absorbs its failures into `None`. -/
def fetchPrice (env : Env) (score : Scorer) (p : Provider) (query : String) :
    Except Exc (Option Offer) :=
  match p with
  | .html name search selectors => do
    let url := pyReplace search "{q}" (env.urlquote query)
    let page ← env.get url
    let titleSel := (alget selectors "title").getD ""
    let priceSel := (alget selectors "price").getD ""
    let titleEl := if titleSel ≠ "" then alget page.sels titleSel else none
    let priceEl := if priceSel ≠ "" then alget page.sels priceSel else none
    let title := titleEl.getD query
    let price := match priceEl with
      | some t => usd t
      | none => usd page.fullText
    match price with
    | some pr =>
      if pr ≠ 0 then
        pure (some ⟨pyTitle (pyReplace name "_" " ") ++ " (live)", pr, some url, some title,
          none, none⟩)
      else pure none
    | none => pure none
  | .csv path zf =>
    match env.readCsv path with
    | .error _ => .ok none
    | .ok allRows =>
      let rows := allRows.filter fun r => !(zf ≠ "" && !pyStarts r.zipPre zf)
      if rows.isEmpty then .ok none
      else
        let titles := rows.map (·.title)
        match extractOne score query titles with
        | some (_, sc, idx) =>
          if 70 ≤ sc then
            match rows.get? idx with
            | some row =>
              match (if row.price = "" then some 0 else pyFloat row.price) with
              | some pr => .ok (some ⟨"Local CSV", pr, none, some row.title, some row.sku, none⟩)
              | none => .ok none
            | none => .ok none
          else .ok none
        | none => .ok none
  | .other => .ok none

/-- The query string `(it.name or it.canonical_hint).replace('"','').strip()`. -/
def queryOf (it : Item) : String :=
  pyTrim (pyReplace (if it.name ≠ "" then it.name else it.canonical_hint) "\"" "")

/-- The provider loop of `/prices_live` for one item: offers collected in
provider order; any exception raised by a fetch aborts the whole loop. -/
def collectOffers (env : Env) (score : Scorer) (providers : List Provider)
    (q : String) : Except Exc (List Offer) :=
  match providers with
  | [] => .ok []
  | p :: rest => do
    let got ← fetchPrice env score p q
    let more ← collectOffers env score rest q
    pure (match got with | some o => o :: more | none => more)

/-- The catalog fallback `sorted(cat["vendors"], key=lambda v: v["price"])`
(the zip of the request is never consulted). -/
def fallbackOffers (hint : String) : List Offer :=
  match catalogGet hint with
  | some cat => (sortByKey (·.price) cat.vendors).map vendorToOffer
  | none => []

/-- One `{"item": ..., "offers": ...}` row of the response. -/
structure ResultRow where
  item : Item
  offers : List Offer
deriving DecidableEq

/-- The per-item body of `/prices_live`: live collection, then catalog
fallback only when no live offer was collected. -/
def itemRow (env : Env) (score : Scorer) (providers : List Provider) (it : Item) :
    Except Exc ResultRow := do
  let offers ← collectOffers env score providers (queryOf it)
  pure ⟨it, if offers.isEmpty then fallbackOffers it.canonical_hint else offers⟩

/-- The `/prices_live` response `{"zip": zip5, "results": out}` (the constant
`"mode": "universal-live"` field is omitted). -/
structure PricesResp where
  zip : String
  results : List ResultRow
deriving DecidableEq

/-- Sequential effectful map (one `await` per provider per item, in order;
an exception aborts the remaining items too). -/
def mapE {α β : Type} (f : α → Except Exc β) : List α → Except Exc (List β)
  | [] => .ok []
  | a :: rest => do
    let b ← f a
    let bs ← mapE f rest
    pure (b :: bs)

/-- The `/prices_live` handler body over the item list and request zip. -/
def pricesLiveE (env : Env) (score : Scorer) (providers : List Provider)
    (items : List Item) (zip : String) : Except Exc PricesResp := do
  let rows ← mapE (itemRow env score providers) items
  pure ⟨pyTake 5 zip, rows⟩

/-! ## `/quote` (`quote`) -/

/-- The `/quote` response record. -/
structure QuoteResp where
  subtotal : ℚ
  markup : ℚ
  tax : ℚ
  total : ℚ
deriving DecidableEq

/-- The subtotal loop of `quote`: unknown SKUs are skipped, otherwise the
cheapest catalog vendor price (`sorted(...)[0]`, modelled head of the stable
sort) times the quantity is accumulated. -/
def subtotalE : List Item → Except Exc ℚ
  | [] => .ok 0
  | it :: rest =>
    match catalogGet it.canonical_hint with
    | none => subtotalE rest
    | some cat =>
      match sortByKey (·.price) cat.vendors with
      | [] => .error .typeError
      | v :: _ => do
        let s ← subtotalE rest
        pure (qadd (qmul it.qty v.price) s)

/-- The `/quote` handler `quote(req)`. -/
def quoteE (items : List Item) (markup_pct tax_pct : ℚ) : Except Exc QuoteResp := do
  let subtotal ← subtotalE items
  let markup := qmul subtotal (qdiv markup_pct 100)
  let tax := qmul (qadd subtotal markup) (qdiv tax_pct 100)
  pure ⟨subtotal, markup, tax, qadd (qadd subtotal markup) tax⟩

/-! ## Concrete scorers and environments used by the witnesses -/

/-- A degenerate scorer: every candidate scores `0` (so the `extractOne`
branch of `fuzzy_to_sku` never clears any cutoff). -/
def zeroScore : Scorer := fun _ _ => 0

/-- A scorer under which `"stud 92"` is the unique best candidate. -/
def studScore : Scorer := fun _ c => if c = "stud 92" then 100 else 0

/-- A scorer under which the lowered raw catalog name
`"fence picket (treated)"` is the unique best candidate, at score exactly 80. -/
def picketScore80 : Scorer := fun _ c => if c = "fence picket (treated)" then 80 else 0

/-- The same scorer one point below the cutoff. -/
def picketScore79 : Scorer := fun _ c => if c = "fence picket (treated)" then 79 else 0

/-- A scorer under which the synonym phrase `"nails"` is the unique best
candidate. -/
def nailsScore : Scorer := fun _ c => if c = "nails" then 100 else 0

/-- An environment in which every network fetch and every CSV read raises. -/
def envFail : Env := ⟨fun _ => .error .netFail, fun _ => .error .ioFail, id⟩

/-- An environment serving a page whose text carries price `$5.00` for URLs
starting with `"A"` and `$3.00` otherwise. -/
def envAB : Env :=
  ⟨fun url => .ok (if pyStarts url "A" then ⟨[], "$5.00"⟩ else ⟨[], "$3.00"⟩),
   fun _ => .error .ioFail, id⟩

/-- An html provider whose search URL template is `"A{q}"`. -/
def provA : Provider := .html "prov_a" "A{q}" []

/-- An html provider whose search URL template is `"B{q}"`. -/
def provB : Provider := .html "prov_b" "B{q}" []

/-- A CSV provider. -/
def provCsv : Provider := .csv "prices.csv" ""

end ContractorOS

deriving instance DecidableEq for Except

namespace ContractorOS

/-! ## Arithmetic bridge lemmas -/

theorem qadd_eq (a b : ℚ) : qadd a b = a + b := by
  rw [Rat.add_def]
  simp [qadd, Rat.normalize_eq_mkRat, Int.mul_comm]

theorem qmul_eq (a b : ℚ) : qmul a b = a * b := by
  rw [Rat.mul_def]
  simp [qmul, Rat.normalize_eq_mkRat]

theorem qneg_eq (a : ℚ) : qneg a = -a := by
  rw [Rat.neg_def, qneg, Rat.mkRat_eq_divInt]

theorem qofNat_eq (n : Nat) : qofNat n = (n : ℚ) := by
  simp [qofNat, Rat.mkRat_one]

theorem qdiv_eq (a b : ℚ) : qdiv a b = a / b := by
  rw [Rat.div_def', qdiv, Rat.mkRat_eq_divInt, Nat.cast_mul]
  rcases lt_trichotomy b.num 0 with hb | hb | hb
  · have hsign : b.num.sign = -1 := Int.sign_eq_neg_one_of_neg hb
    have habs : (b.num.natAbs : ℤ) = -b.num := Int.ofNat_natAbs_of_nonpos hb.le
    rw [hsign, habs]
    have h1 : a.num * b.den * -1 = -(a.num * b.den) := by ring
    have h2 : (a.den : ℤ) * -b.num = -((a.den : ℤ) * b.num) := by ring
    rw [h1, h2, Rat.divInt_neg, neg_neg]
  · rw [hb]
    simp
  · have hsign : b.num.sign = 1 := Int.sign_eq_one_of_pos hb
    have habs : (b.num.natAbs : ℤ) = b.num := Int.natAbs_of_nonneg hb.le
    rw [hsign, habs, mul_one]

/-! ## Sorting lemmas (the stable ascending sort of `sorted(..., key=...)`) -/

theorem sortByKey_sorted {α : Type} (key : α → ℚ) (l : List α) :
    List.Sorted (fun a b => key a ≤ key b) (sortByKey key l) := by
  haveI : IsTotal α fun a b => key a ≤ key b := ⟨fun a b => le_total (key a) (key b)⟩
  haveI : IsTrans α fun a b => key a ≤ key b := ⟨fun _ _ _ hab hbc => le_trans hab hbc⟩
  exact List.sorted_insertionSort _ l

theorem sortByKey_perm {α : Type} (key : α → ℚ) (l : List α) :
    (sortByKey key l).Perm l :=
  List.perm_insertionSort _ l

/-- The catalog fallback of `/prices_live` is always ascending in price. -/
theorem fallbackOffers_sorted (hint : String) :
    List.Sorted (fun a b : Offer => a.price ≤ b.price) (fallbackOffers hint) := by
  unfold fallbackOffers
  cases h : catalogGet hint with
  | none => simp
  | some cat =>
    rw [List.Sorted, List.pairwise_map]
    exact sortByKey_sorted (·.price) cat.vendors

/-- The catalog fallback is a permutation of the entry's vendor rows. -/
theorem fallbackOffers_perm (hint : String) (cat : CatEntry)
    (h : catalogGet hint = some cat) :
    (fallbackOffers hint).Perm (cat.vendors.map vendorToOffer) := by
  unfold fallbackOffers
  rw [h]
  exact (sortByKey_perm (·.price) cat.vendors).map vendorToOffer

/-! ## `extractOne` facts -/

theorem extractOneGo_mem (score : Scorer) (q : String) :
    ∀ (l : List String) (best : Option (String × ℚ × Nat)) (i : Nat)
      (m : String) (sc : ℚ) (j : Nat),
      extractOneGo score q best i l = some (m, sc, j) →
      best = some (m, sc, j) ∨ m ∈ l := by
  intro l
  induction l with
  | nil =>
    intro best i m sc j h
    rw [extractOneGo] at h
    exact .inl h
  | cons c rest ih =>
    intro best i m sc j h
    rcases best with _ | ⟨bc, bs, bi⟩
    · rw [extractOneGo] at h
      rcases ih _ _ _ _ _ h with h' | h'
      · simp only [Option.some.injEq, Prod.mk.injEq] at h'
        exact .inr (h'.1 ▸ List.mem_cons_self c rest)
      · exact .inr (List.mem_cons_of_mem c h')
    · rw [extractOneGo] at h
      split at h
      · rcases ih _ _ _ _ _ h with h' | h'
        · simp only [Option.some.injEq, Prod.mk.injEq] at h'
          exact .inr (h'.1 ▸ List.mem_cons_self c rest)
        · exact .inr (List.mem_cons_of_mem c h')
      · rcases ih _ _ _ _ _ h with h' | h'
        · exact .inl h'
        · exact .inr (List.mem_cons_of_mem c h')

/-- The winning candidate of `extractOne` is one of the choices. -/
theorem extractOne_mem (score : Scorer) (q : String) (choices : List String)
    (m : String) (sc : ℚ) (j : Nat)
    (h : extractOne score q choices = some (m, sc, j)) : m ∈ choices := by
  rcases extractOneGo_mem score q choices none 0 m sc j h with h' | h'
  · cases h'
  · exact h'

/-- Every candidate of `fuzzy_to_sku`'s `extractOne` call resolves to a SKU
once it clears the cutoff (no `CANON_MAP` target dangles and every lowered
catalog name matches its own entry). -/
theorem resolveMatch_total : ∀ m ∈ candidates, (resolveMatch m).isSome := by decide

/-- If every provider fetch returns `None`, the collection loop returns the
empty offer list (and raises nothing). -/
theorem collectOffers_none (env : Env) (score : Scorer) :
    ∀ (ps : List Provider) (q : String),
      (∀ p ∈ ps, fetchPrice env score p q = .ok none) →
      collectOffers env score ps q = .ok [] := by
  intro ps
  induction ps with
  | nil => intro q _; rfl
  | cons p rest ih =>
    intro q hall
    rw [collectOffers, hall p (List.mem_cons_self p rest),
      ih q fun p' hp' => hall p' (List.mem_cons_of_mem p hp')]
    rfl

/-! ## Quantity sign lemmas -/

theorem qofNat_nonneg (n : Nat) : 0 ≤ qofNat n := by
  rw [qofNat_eq]
  positivity

theorem qadd_div_nonneg (a b c : ℚ) (ha : 0 ≤ a) (hb : 0 ≤ b) (hc : 0 ≤ c) :
    0 ≤ qadd a (qdiv b c) := by
  rw [qadd_eq, qdiv_eq]
  positivity

theorem numFrom_nonneg (s : List Char) : 0 ≤ numFrom s := by
  rw [numFrom]
  split
  · dsimp only
    split
    · exact qofNat_nonneg _
    · exact qadd_div_nonneg _ _ _ (qofNat_nonneg _) (qofNat_nonneg _) (qofNat_nonneg _)
  · exact qofNat_nonneg _

theorem findNumAux_nonneg :
    ∀ (b : Bool) (l : List Char) (q : ℚ), findNumAux b l = some q → 0 ≤ q := by
  intro b l
  induction l generalizing b with
  | nil => intro q h; cases h
  | cons c rest ih =>
    intro q h
    rw [findNumAux] at h
    split at h
    · cases h
      exact numFrom_nonneg _
    · exact ih _ _ h

/-- The quantity of `parse_line` (`float(m.group(2))` with default `1.0`) is
never negative. -/
theorem parse_line_qty_nonneg (line s : String) (q : ℚ)
    (h : parse_line line = some (s, q)) : 0 ≤ q := by
  have base : 0 ≤ (findNum (pyLower line)).getD 1 := by
    cases hf : findNum (pyLower line) with
    | none => norm_num
    | some v => simpa using findNumAux_nonneg true _ v hf
  rw [parse_line] at h
  split_ifs at h <;> (cases h; exact base)

/-- Python `x or 1.0` is positive whenever `x` is a missing or nonnegative
quantity. -/
theorem orOne_pos (o : Option ℚ) (h : ∀ q, o = some q → 0 ≤ q) : 0 < orOne o := by
  cases o with
  | none => norm_num [orOne]
  | some q =>
    rw [orOne]
    split
    · norm_num
    · rename_i hq
      exact lt_of_le_of_ne (h q rfl) (Ne.symm hq)

theorem bump_pos (k : String) (v : ℚ) :
    ∀ (acc : List (String × ℚ)), (∀ p ∈ acc, 0 < p.2) → 0 < v →
      ∀ p ∈ bump acc k v, 0 < p.2 := by
  intro acc
  induction acc with
  | nil =>
    intro _ hv p hp
    rw [bump, List.mem_singleton] at hp
    subst hp
    exact hv
  | cons hd rest ih =>
    intro hacc hv p hp
    rw [bump] at hp
    split at hp
    · rw [List.mem_cons] at hp
      rcases hp with rfl | hp
      · show 0 < qadd hd.2 v
        rw [qadd_eq]
        exact add_pos (hacc hd (List.mem_cons_self hd rest)) hv
      · exact hacc p (List.mem_cons_of_mem hd hp)
    · rw [List.mem_cons] at hp
      rcases hp with rfl | hp
      · exact hacc hd (List.mem_cons_self hd rest)
      · exact ih (fun p' hp' => hacc p' (List.mem_cons_of_mem hd hp')) hv p hp

theorem bump_nonneg (k : String) (v : ℚ) :
    ∀ (acc : List (String × ℚ)), (∀ p ∈ acc, 0 ≤ p.2) → 0 ≤ v →
      ∀ p ∈ bump acc k v, 0 ≤ p.2 := by
  intro acc
  induction acc with
  | nil =>
    intro _ hv p hp
    rw [bump, List.mem_singleton] at hp
    subst hp
    exact hv
  | cons hd rest ih =>
    intro hacc hv p hp
    rw [bump] at hp
    split at hp
    · rw [List.mem_cons] at hp
      rcases hp with rfl | hp
      · show 0 ≤ qadd hd.2 v
        rw [qadd_eq]
        exact add_nonneg (hacc hd (List.mem_cons_self hd rest)) hv
      · exact hacc p (List.mem_cons_of_mem hd hp)
    · rw [List.mem_cons] at hp
      rcases hp with rfl | hp
      · exact hacc hd (List.mem_cons_self hd rest)
      · exact ih (fun p' hp' => hacc p' (List.mem_cons_of_mem hd hp')) hv p hp

/-- Invariant of the `simple_intents_from_text` loop: every accumulated
quantity stays strictly positive. -/
theorem simpleLines_pos (score : Scorer) :
    ∀ (lines : List String) (acc : List (String × ℚ)),
      (∀ p ∈ acc, 0 < p.2) → ∀ p ∈ simpleLines score lines acc, 0 < p.2 := by
  intro lines
  induction lines with
  | nil => intro acc hacc p hp; exact hacc p hp
  | cons rawL rest ih =>
    intro acc hacc p hp
    rw [simpleLines] at hp
    split at hp
    · exact ih acc hacc p hp
    · split at hp
      · rename_i sku qty hparse
        refine ih _ (bump_pos _ _ acc hacc (orOne_pos _ ?_)) p hp
        intro q hq
        cases hq
        exact parse_line_qty_nonneg _ _ _ hparse
      · split at hp
        · exact ih _ (bump_pos _ _ acc hacc (orOne_pos _ fun q hq => by cases hq)) p hp
        · exact ih acc hacc p hp

/-- Invariant of the `normalize` loop: every accumulated quantity stays
nonnegative (an explicit `0` token keeps it at zero). -/
theorem normLines_nonneg (score : Scorer) :
    ∀ (lines : List String) (acc res : List (String × ℚ)),
      (∀ p ∈ acc, 0 ≤ p.2) → normLines score lines acc = .ok res →
      ∀ p ∈ res, 0 ≤ p.2 := by
  intro lines
  induction lines with
  | nil =>
    intro acc res hacc h p hp
    rw [normLines] at h
    cases h
    exact hacc p hp
  | cons rawL rest ih =>
    intro acc res hacc h p hp
    rw [normLines] at h
    split at h
    · exact ih acc res hacc h p hp
    · split at h
      · rename_i sku qty hparse
        exact ih _ res
          (bump_nonneg _ _ acc hacc (parse_line_qty_nonneg _ _ _ hparse)) h p hp
      · split at h
        · cases h
        · exact ih acc res hacc h p hp

/-- The quantity of each materialised item is the accumulated quantity. -/
theorem itemsOf_qty (acc : List (String × ℚ)) :
    ∀ i ∈ itemsOf acc, ∃ p ∈ acc, i.qty = p.2 := by
  intro i hi
  rcases List.mem_map.mp hi with ⟨p, hp, rfl⟩
  refine ⟨p, hp, ?_⟩
  cases h : catalogGet p.1 <;> simp [h]

/-! ## Claim theorems -/

/-- Claim C1 — refuted (code bug).  `aggregateLines` is claimed never to
raise, but the `normalize` embodiment raises a `TypeError` on the input
`"pickets"`: the line is resolved by the synonym path (`fuzzy_to_sku`), so
the quantity returned by `parse_line` is Python `None`, and
`float(qty)` raises — for every scorer. -/
theorem normalize_raises_on_fuzzy_line (score : Scorer) :
    normalizeE score "pickets" = .error .typeError := rfl

/-- Witness for the C1 theorem at a concrete scorer. -/
theorem normalize_raises_on_fuzzy_line_w :
    normalizeE zeroScore "pickets" = .error .typeError :=
  normalize_raises_on_fuzzy_line zeroScore

/-- Claim C2 — refuted (code bug).  A network failure in an html provider is
not absorbed: `fetch_price_by_provider` has no `try/except` around the
`session.get`, so the exception propagates out of `prices_live`, aborting the
remaining providers and the remaining items; only the `csv` branch absorbs
its failures (third conjunct: a CSV read error still yields the catalog
fallback). -/
theorem prices_live_propagates_html_failure :
    pricesLiveE envFail zeroScore [provA] [⟨"widget", 1, "", "zzz"⟩] "78701"
        = .error .netFail
    ∧ pricesLiveE envFail zeroScore [provA]
        [⟨"widget", 1, "", "zzz"⟩, ⟨"2x4 stud", 1, "each", "2x4_stud_92"⟩] "78701"
        = .error .netFail
    ∧ pricesLiveE envFail zeroScore [provCsv] [⟨"2x4 stud", 1, "each", "2x4_stud_92"⟩]
        "78701"
        = .ok ⟨"78701", [⟨⟨"2x4 stud", 1, "each", "2x4_stud_92"⟩,
            fallbackOffers "2x4_stud_92"⟩]⟩ :=
  ⟨by decide, by decide, by decide⟩

/-- Claim C3 — counterexample.  With no live offers and request zip
`"90210"`, the catalog fallback still returns the `zipPrefix = "784"` rows
(the code never filters the fallback by zip), refuting «an offer with
zipPrefix "784" appears in the result only when the request zip starts with
"784"». -/
theorem fallback_ignores_zip_cx :
    pricesLiveE envFail zeroScore [] [⟨"2x4 stud", 1, "each", "2x4_stud_92"⟩] "90210" =
        .ok ⟨"90210", [⟨⟨"2x4 stud", 1, "each", "2x4_stud_92"⟩,
          [⟨"McCoy's", mkRat 369 100, none, none, none, some "784"⟩,
           ⟨"Lowe's", mkRat 375 100, none, none, none, some "784"⟩,
           ⟨"Home Depot", mkRat 379 100, none, none, none, some "784"⟩,
           ⟨"Generic", mkRat 410 100, none, none, none, some "*"⟩]⟩]⟩
    ∧ pyStarts "90210" "784" = false :=
  ⟨by decide, by decide⟩

/-- Claim C3 — amended.  If every configured live provider returns no offer
for an item whose `canonical_hint` is a catalog SKU, `prices_live` returns
exactly the catalog vendor offers for that SKU sorted ascending by price,
with no zip filtering whatsoever: the offer list is a permutation of all
vendor rows of the entry, for every request zip. -/
theorem fallback_is_all_catalog_offers_sorted (env : Env) (score : Scorer)
    (providers : List Provider) (it : Item) (zip : String) (cat : CatEntry)
    (hall : ∀ p ∈ providers, fetchPrice env score p (queryOf it) = .ok none)
    (hcat : catalogGet it.canonical_hint = some cat) :
    pricesLiveE env score providers [it] zip =
        .ok ⟨pyTake 5 zip, [⟨it, fallbackOffers it.canonical_hint⟩]⟩
    ∧ List.Sorted (fun a b : Offer => a.price ≤ b.price)
        (fallbackOffers it.canonical_hint)
    ∧ (fallbackOffers it.canonical_hint).Perm (cat.vendors.map vendorToOffer) := by
  refine ⟨?_, fallbackOffers_sorted _, fallbackOffers_perm _ cat hcat⟩
  have hcoll := collectOffers_none env score providers (queryOf it) hall
  simp only [pricesLiveE, mapE, itemRow, hcoll]
  rfl

/-- Witness for the amended C3 theorem at a concrete input. -/
theorem fallback_is_all_catalog_offers_sorted_w :
    pricesLiveE envFail zeroScore [] [⟨"2x4 stud", 1, "each", "2x4_stud_92"⟩] "90210" =
      .ok ⟨"90210", [⟨⟨"2x4 stud", 1, "each", "2x4_stud_92"⟩,
        fallbackOffers "2x4_stud_92"⟩]⟩ :=
  (fallback_is_all_catalog_offers_sorted envFail zeroScore []
    ⟨"2x4 stud", 1, "each", "2x4_stud_92"⟩ "90210"
    ⟨"2x4 Stud 92-5/8\"", "each",
      [⟨"McCoy's", "784", mkRat 369 100⟩, ⟨"Home Depot", "784", mkRat 379 100⟩,
       ⟨"Lowe's", "784", mkRat 375 100⟩, ⟨"Generic", "*", mkRat 410 100⟩]⟩
    (by simp) (by decide)).1

/-- Claim C4 — counterexample.  Two live html providers contribute prices
`5` then `3`; `prices_live` returns them in provider order, not sorted
ascending by price. -/
theorem live_offers_unsorted_cx :
    pricesLiveE envAB zeroScore [provA, provB] [⟨"widget", 1, "", "zzz"⟩] "78701" =
        .ok ⟨"78701", [⟨⟨"widget", 1, "", "zzz"⟩,
          [⟨"Prov A (live)", 5, some "Awidget", some "widget", none, none⟩,
           ⟨"Prov B (live)", 3, some "Bwidget", some "widget", none, none⟩]⟩]⟩
    ∧ ¬ List.Sorted (fun a b : Offer => a.price ≤ b.price)
        [⟨"Prov A (live)", 5, some "Awidget", some "widget", none, none⟩,
         ⟨"Prov B (live)", 3, some "Bwidget", some "widget", none, none⟩] :=
  ⟨by decide, by decide⟩

/-- Claim C4 — amended.  The offer list of an item is sorted ascending by
price only in the catalog-fallback case: when the live collection is
nonempty it is returned exactly as collected, in provider order, and only an
empty collection is replaced by the (always sorted) catalog fallback. -/
theorem offers_sorted_only_in_fallback (env : Env) (score : Scorer)
    (providers : List Provider) (it : Item) (c : List Offer)
    (hc : collectOffers env score providers (queryOf it) = .ok c) :
    itemRow env score providers it =
        .ok ⟨it, if c.isEmpty then fallbackOffers it.canonical_hint else c⟩
    ∧ List.Sorted (fun a b : Offer => a.price ≤ b.price)
        (fallbackOffers it.canonical_hint) := by
  refine ⟨?_, fallbackOffers_sorted _⟩
  simp [itemRow, hc]

/-- Witness for the amended C4 theorem at a concrete input. -/
theorem offers_sorted_only_in_fallback_w :
    itemRow envFail zeroScore [] ⟨"widget", 1, "", "zzz"⟩ =
      .ok ⟨⟨"widget", 1, "", "zzz"⟩, fallbackOffers "zzz"⟩ := by
  have h := (offers_sorted_only_in_fallback envFail zeroScore []
    ⟨"widget", 1, "", "zzz"⟩ [] (by decide)).1
  simpa using h

/-- Claim C5 — counterexample.  A raw-catalog-name candidate
(`"fence picket (treated)"`, the lowered name of `picket_treated`, not a
`CANON_MAP` phrase) whose score is exactly `80` resolves, although the claim
requires score at least `85` for raw catalog names. -/
theorem catalog_name_resolves_at_80_cx :
    fuzzy_to_sku picketScore80 "zzz" = some "picket_treated"
    ∧ picketScore80 "zzz" "fence picket (treated)" = 80
    ∧ canonLookup "fence picket (treated)" = none
    ∧ ¬ (85 ≤ (80 : ℚ)) :=
  ⟨by decide, by decide, by decide, by decide⟩

/-- Claim C5 — amended.  `fuzzy_to_sku` applies one single confidence
threshold of `80` to every candidate, synonym phrase or raw catalog name
alike: when the exact path misses, the phrase resolves exactly when the best
`extractOne` candidate scores at least `80` (so exactly `80` resolves and
`79` does not, for either candidate kind). -/
theorem fuzzy_single_threshold_80 (score : Scorer) (text m : String) (sc : ℚ)
    (i : Nat) (hex : canonLookup (normPhrase text) = none)
    (hgot : extractOne score (normPhrase text) candidates = some (m, sc, i)) :
    (80 ≤ sc → (fuzzy_to_sku score text).isSome)
    ∧ (sc < 80 → fuzzy_to_sku score text = none) := by
  have hm := extractOne_mem score (normPhrase text) candidates m sc i hgot
  simp only [fuzzy_to_sku, fuzzyResolve, hex, hgot]
  constructor
  · intro h80
    rw [if_pos h80]
    exact resolveMatch_total m hm
  · intro hlt
    rw [if_neg (not_le.mpr hlt)]

/-- Witness for the amended C5 theorem: score exactly `80` resolves, `79`
does not. -/
theorem fuzzy_single_threshold_80_w :
    (fuzzy_to_sku picketScore80 "zzz").isSome
    ∧ fuzzy_to_sku picketScore79 "zzz" = none :=
  ⟨(fuzzy_single_threshold_80 picketScore80 "zzz" "fence picket (treated)" 80 25
      (by decide) (by decide)).1 (by norm_num),
   (fuzzy_single_threshold_80 picketScore79 "zzz" "fence picket (treated)" 79 25
      (by decide) (by decide)).2 (by norm_num)⟩

/-- Claim C6 — refuted (code bug).  On «"2 2x4 studs" + "3 studs"» the
quantities are not summed to `5`: the line `"3 studs"` only resolves through
`fuzzy_to_sku`, whose path keeps no quantity, so `simple_intents_from_text`
substitutes `1.0` (total `3`) while `normalize` raises `TypeError`; with a
scorer that does not resolve `"3 studs"` the line is dropped (total `2`under
both).  Neither embodiment ever produces `5`. -/
theorem same_sku_quantities_not_summed :
    simple_intents_from_text studScore "2 2x4 studs\n3 studs" =
        [⟨"2x4 Stud 92-5/8\"", 3, "each", "2x4_stud_92"⟩]
    ∧ normalizeE studScore "2 2x4 studs\n3 studs" = .error .typeError
    ∧ simple_intents_from_text zeroScore "2 2x4 studs\n3 studs" =
        [⟨"2x4 Stud 92-5/8\"", 2, "each", "2x4_stud_92"⟩]
    ∧ fuzzy_to_sku studScore "3 studs" = some "2x4_stud_92"
    ∧ parse_line "2 2x4 studs" = some ("2x4_stud_92", 2) :=
  ⟨by decide, by decide, by decide, by decide, by decide⟩

/-- Claim C7 — counterexample.  The line `"0 nails"` carries the explicit
decimal token `0`, and `normalize` returns the item with quantity `0`,
refuting «quantity strictly greater than 0». -/
theorem zero_quantity_item_cx :
    normalizeE zeroScore "0 nails" = .ok [⟨"Nails (per lb)", 0, "lb", "nails_lb"⟩]
    ∧ ¬ (0 < (0 : ℚ)) :=
  ⟨by decide, by decide⟩

/-- Claim C7 — amended.  Every intent produced by
`simple_intents_from_text` has quantity strictly greater than `0` (its
accumulation is `qty or 1.0`); the items produced by `normalize` are only
guaranteed nonnegative, an explicit `0` token being kept; and a line with no
decimal-number token gets the default quantity `1.0` from `parse_line`. -/
theorem resolution_qty_bounds :
    (∀ (score : Scorer) (text : String),
      ∀ i ∈ simple_intents_from_text score text, 0 < i.qty)
    ∧ (∀ (score : Scorer) (text : String) (out : List Item),
        normalizeE score text = .ok out → ∀ i ∈ out, 0 ≤ i.qty)
    ∧ (∀ (line s : String) (q : ℚ),
        findNum (pyLower line) = none → parse_line line = some (s, q) → q = 1) := by
  refine ⟨?_, ?_, ?_⟩
  · intro score text i hi
    rcases itemsOf_qty _ i hi with ⟨p, hp, hq⟩
    rw [hq]
    exact simpleLines_pos score (pyLines text) [] (by simp) p hp
  · intro score text out hout i hi
    rw [normalizeE] at hout
    cases hacc : normLines score (pyLines text) [] with
    | error e => rw [hacc] at hout; cases hout
    | ok acc =>
      rw [hacc] at hout
      cases hout
      rcases itemsOf_qty _ i hi with ⟨p, hp, hq⟩
      rw [hq]
      exact normLines_nonneg score (pyLines text) [] acc (by simp) hacc p hp
  · intro line s q hnone h
    rw [parse_line] at h
    split_ifs at h <;> (cases h; rw [hnone]; rfl)

/-- Witness for the amended C7 theorem at concrete inputs. -/
theorem resolution_qty_bounds_w :
    0 < (⟨"Nails (per lb)", 1, "lb", "nails_lb"⟩ : Item).qty
    ∧ 0 ≤ (⟨"Nails (per lb)", 0, "lb", "nails_lb"⟩ : Item).qty
    ∧ ((1 : ℚ) = 1) :=
  ⟨resolution_qty_bounds.1 zeroScore "nails"
      ⟨"Nails (per lb)", 1, "lb", "nails_lb"⟩ (by decide),
   resolution_qty_bounds.2.1 zeroScore "0 nails"
      [⟨"Nails (per lb)", 0, "lb", "nails_lb"⟩] (by decide)
      ⟨"Nails (per lb)", 0, "lb", "nails_lb"⟩ (by decide),
   resolution_qty_bounds.2.2 "nails" "nails_lb" 1 (by decide) (by decide)⟩

/-- Claim C8 — counterexample.  On qty `10` of the SKU with cheapest catalog
price `3.69`, markup `15` % and tax `8.25` %, the code yields tax
`3.5008875` and total `45.9358875` — not the claimed `3.5014125` and
`45.9364125` (those are inconsistent with the claim's own formula). -/
theorem quote_tax_value_cx :
    quoteE [⟨"2x4 stud", 10, "each", "2x4_stud_92"⟩] 15 (mkRat 825 100) =
        .ok ⟨mkRat 369 10, mkRat 5535 1000, mkRat 35008875 10000000,
          mkRat 459358875 10000000⟩
    ∧ (mkRat 825 100 : ℚ) = 8.25
    ∧ (mkRat 369 10 : ℚ) = 36.90
    ∧ (mkRat 5535 1000 : ℚ) = 5.535
    ∧ (mkRat 35008875 10000000 : ℚ) ≠ 3.5014125
    ∧ (mkRat 459358875 10000000 : ℚ) ≠ 45.9364125 := by
  refine ⟨by decide, ?_, ?_, ?_, ?_, ?_⟩ <;> rw [Rat.mkRat_eq_div] <;> norm_num

/-- Claim C8 — amended.  `quote` computes
`subtotal = Σ (qty × cheapest catalog price)` with unknown SKUs contributing
zero and raising nothing, `markup = subtotal × markup_pct/100`,
`tax = (subtotal + markup) × tax_pct/100`, `total = subtotal + markup + tax`;
at the claimed concrete input this gives tax `3.5008875` and total
`45.9358875`. -/
theorem quote_formulas :
    (∀ (items : List Item) (m t st : ℚ), subtotalE items = .ok st →
        quoteE items m t = .ok ⟨st, st * (m / 100),
          (st + st * (m / 100)) * (t / 100),
          st + st * (m / 100) + (st + st * (m / 100)) * (t / 100)⟩)
    ∧ (∀ (it : Item) (items : List Item), catalogGet it.canonical_hint = none →
        subtotalE (it :: items) = subtotalE items)
    ∧ quoteE [⟨"2x4 stud", 10, "each", "2x4_stud_92"⟩] 15 (mkRat 825 100) =
        .ok ⟨mkRat 369 10, mkRat 5535 1000, mkRat 35008875 10000000,
          mkRat 459358875 10000000⟩ := by
  refine ⟨?_, ?_, by decide⟩
  · intro items m t st hs
    simp only [quoteE, hs, Except.bind, qadd_eq, qmul_eq, qdiv_eq]
    rfl
  · intro it items h
    simp only [subtotalE, h]

/-- Witness for the amended C8 theorem: an item with an unknown SKU
contributes zero to the subtotal, and the formulas are exercised at the
empty request. -/
theorem quote_formulas_w :
    subtotalE [⟨"mystery", 1, "", "no_such_sku"⟩] = subtotalE []
    ∧ quoteE [] 0 0 = .ok ⟨0, 0 * ((0 : ℚ) / 100),
        (0 + 0 * ((0 : ℚ) / 100)) * ((0 : ℚ) / 100),
        0 + 0 * ((0 : ℚ) / 100) + (0 + 0 * ((0 : ℚ) / 100)) * ((0 : ℚ) / 100)⟩ :=
  ⟨quote_formulas.2.1 ⟨"mystery", 1, "", "no_such_sku"⟩ [] (by decide),
   quote_formulas.1 [] 0 0 0 rfl⟩

/-- Claim C9 — counterexample.  On the name `"2x4 92 studs"` the compound
keyword rules succeed with `2x4_stud_92`, yet under a scorer making
`"nails"` the best fuzzy candidate the repaired hint is `nails_lb`: the code
computes `sku_fuzzy or sku_guess or "2x4_stud_92"`, so the fuzzy stage
preempts the keyword rules — not «compound keyword rules first». -/
theorem repair_fuzzy_preempts_rules_cx :
    repairHint nailsScore "bogus" "2x4 92 studs" = "nails_lb"
    ∧ parse_line "2x4 92 studs" = some ("2x4_stud_92", 2)
    ∧ fuzzy_to_sku nailsScore "2x4 92 studs" = some "nails_lb"
    ∧ catalogGet "bogus" = none
    ∧ "nails_lb" ≠ "2x4_stud_92" :=
  ⟨by decide, by decide, by decide, by decide, by decide⟩

/-- Claim C9 — amended.  An externally proposed `canonical_hint` present in
the catalog is kept; otherwise the item's name is re-resolved with the
synonym/fuzzy lookup (`fuzzy_to_sku`) taking precedence over the compound
keyword rules (`parse_line`), and only when both fail is the baseline SKU
`"2x4_stud_92"` substituted (this is the hint-repair of both `normalize_gpt`
and `search_materials`). -/
theorem repair_order (score : Scorer) (hint name : String) :
    ((catalogGet hint).isSome → repairHint score hint name = hint)
    ∧ (catalogGet hint = none → ∀ s, fuzzy_to_sku score name = some s →
        repairHint score hint name = s)
    ∧ (catalogGet hint = none → fuzzy_to_sku score name = none →
        ∀ g q, parse_line name = some (g, q) → repairHint score hint name = g)
    ∧ (catalogGet hint = none → fuzzy_to_sku score name = none →
        parse_line name = none → repairHint score hint name = "2x4_stud_92")
    ∧ (∀ d : Draft, (gptItem score d).canonical_hint =
        repairHint score (d.hint.getD "") (d.name.getD "")) := by
  refine ⟨?_, ?_, ?_, ?_, fun d => rfl⟩
  · intro h
    rw [repairHint, if_pos h]
  · intro h s hs
    rw [repairHint, if_neg (by simp [h]), hs]
  · intro h hf g q hg
    rw [repairHint, if_neg (by simp [h]), hf, hg]
  · intro h hf hg
    rw [repairHint, if_neg (by simp [h]), hf, hg]

/-- Witness for the amended C9 theorem at concrete inputs. -/
theorem repair_order_w :
    repairHint studScore "bogus" "3 studs" = "2x4_stud_92"
    ∧ repairHint zeroScore "bogus" "" = "2x4_stud_92" :=
  ⟨(repair_order studScore "bogus" "3 studs").2.1 (by decide) _ (by decide),
   (repair_order zeroScore "bogus" "").2.2.2.1 (by decide) (by decide) (by decide)⟩

/-- Claim C10 — confirmed.  `fuzzy_to_sku` depends on its input phrase only
through the normalisation that lowercases, deletes every double quote and
every left-to-right occurrence of `"in"` (then strips): phrases with the
same normal form resolve identically, and `"finishing nails"` indeed
normalises to `"fishg nails"`. -/
theorem fuzzy_normalisation_congruence :
    (∀ (score : Scorer) (a b : String), preNorm a = preNorm b →
        fuzzy_to_sku score a = fuzzy_to_sku score b)
    ∧ preNorm "finishing nails" = "fishg nails" := by
  refine ⟨?_, by decide⟩
  intro score a b h
  unfold fuzzy_to_sku normPhrase
  rw [h]

/-- Witness for the C10 theorem at a concrete pair of phrases. -/
theorem fuzzy_normalisation_congruence_w :
    fuzzy_to_sku zeroScore "Finishing Nails" = fuzzy_to_sku zeroScore "finishing nails" :=
  fuzzy_normalisation_congruence.1 zeroScore _ _ (by decide)

end ContractorOS


